import Mathlib

/-!
A verification development for `UpdateData.py`, a COVID-19 data pipeline.

The pipeline loads two wide-format time-series tables (confirmed cases and
deaths, one row per county, one column per date) and a population reference
table, normalizes the FIPS identifiers, builds identifier/date indexes,
reshapes the data into one long-form table keyed by (FIPS, date) at county,
state and national granularity, derives rolling-delta and per-100k columns,
casts everything to integers and persists the result.

The embedding below translates the data model and the operations of the
source file: pandas Series become lists, floats become rationals, numpy
rounding becomes round-half-to-even on `ℚ`, `astype('int')` becomes
truncation toward zero, and the module-level `assert` becomes an
`Except`-valued driver.
-/

/-- Round half to even on rationals: the semantics of `round(x, 0)` on a
pandas Series (which delegates to `numpy.round`). -/
def roundHE (q : ℚ) : ℤ :=
  let f : ℤ := ⌊q⌋
  let r : ℚ := q - (f : ℚ)
  if r < 1/2 then f
  else if 1/2 < r then f + 1
  else if Even f then f else f + 1

/-- Truncation toward zero: the semantics of `astype('int')` and
`astype('int32')` applied to a float value. -/
def truncQ (q : ℚ) : ℤ := if 0 ≤ q then ⌊q⌋ else ⌈q⌉

/-- Wrap an integer into the `int32` range, the overflow behaviour of
numpy's `astype('int32')`. -/
def wrap32 (n : ℤ) : ℤ := (n + 2 ^ 31) % 2 ^ 32 - 2 ^ 31

/-- Decimal digits of a natural number, most significant first, accumulated
into `acc`: the digit part of Python's `str(int)`.  The first argument is
fuel bounding the number of digits. -/
def natReprAux : Nat → Nat → List Char → List Char
  | 0, _, acc => acc
  | fuel + 1, n, acc =>
    if n < 10 then Char.ofNat (48 + n % 10) :: acc
    else natReprAux fuel (n / 10) (Char.ofNat (48 + n % 10) :: acc)

/-- Decimal representation of a natural number. -/
def natDigits (n : Nat) : List Char := natReprAux (n + 1) n []

/-- Python's `str` applied to an int. -/
def intToStr (n : ℤ) : String :=
  if n < 0 then String.mk ('-' :: natDigits n.natAbs) else String.mk (natDigits n.natAbs)

/-- Python's `str.zfill(w)` on a character list: pad on the left with `'0'`
up to width `w`, inserting the padding after a leading sign character. -/
def zfillList (w : Nat) (l : List Char) : List Char :=
  if w ≤ l.length then l
  else if l = [] then List.replicate w '0'
  else if l.headI = '-' ∨ l.headI = '+' then
    l.headI :: (List.replicate (w - l.length) '0' ++ l.tail)
  else List.replicate (w - l.length) '0' ++ l

/-- Python's `str.zfill(w)`. -/
def zfill (w : Nat) (s : String) : String := String.mk (zfillList w s.data)

/-- The year encoded by a two-digit `%y` value (pandas maps 0–68 to the
2000s and 69–99 to the 1900s). -/
def yearOfYY (yy : Nat) : Nat := if yy ≤ 68 then 2000 + yy else 1900 + yy

/-- Split a character list at every `'/'`. -/
def splitSlash : List Char → List (List Char)
  | [] => [[]]
  | c :: rest =>
    if c = '/' then [] :: splitSlash rest
    else
      match splitSlash rest with
      | [] => [[c]]
      | g :: gs => (c :: g) :: gs

/-- Parse a digit list into a number, left to right. -/
def parseNatAux : List Char → Nat → Option Nat
  | [], acc => some acc
  | c :: rest, acc =>
    if c.isDigit then parseNatAux rest (acc * 10 + (c.toNat - 48)) else none

/-- Parse a nonempty all-digit character list. -/
def parseNat (l : List Char) : Option Nat :=
  if l = [] then none else parseNatAux l 0

/-- Chronological sort key of an `m/d/yy` date label, the effect of
`pd.to_datetime(..., format='%m/%d/%y')` for the purpose of ordering:
year, then month, then day.  Malformed labels get key 0. -/
def dateKey (s : String) : Nat :=
  match (splitSlash s.data).map parseNat with
  | [some m, some d, some y] => yearOfYY y * 10000 + m * 100 + d
  | _ => 0

/-- Strict lexicographic comparison of character lists by code point: the
order Python uses to compare strings. -/
def charListLt : List Char → List Char → Bool
  | [], [] => false
  | [], _ :: _ => true
  | _ :: _, [] => false
  | a :: as, b :: bs => if a < b then true else if b < a then false else charListLt as bs

/-- Non-strict lexicographic comparison of character lists by code point. -/
def charListLe : List Char → List Char → Bool
  | [], _ => true
  | _ :: _, [] => false
  | a :: as, b :: bs => if a < b then true else if b < a then false else charListLe as bs

/-- Strict string comparison by code point. -/
def strLt (a b : String) : Bool := charListLt a.data b.data

/-- Non-strict string comparison by code point. -/
def strLe (a b : String) : Bool := charListLe a.data b.data

/-- A row of a raw wide-format table as read from CSV: the raw FIPS cell
(`none` models NaN), the `Province_State` display name, and the numeric
cell under each date column label. -/
structure RawWRow where
  rawFips : Option ℚ
  provinceState : String
  vals : String → ℤ

/-- A raw wide-format table: its ordered column labels and its rows. -/
structure RawWide where
  columns : List String
  rows : List RawWRow

/-- A wide-format row after FIPS normalization. -/
structure WRow where
  fips : String
  provinceState : String
  vals : String → ℤ

/-- A wide-format table after FIPS normalization. -/
structure Wide where
  columns : List String
  rows : List WRow

/-- A row of the raw population reference table: raw FIPS cell, `STNAME`
display name, and the pre-scaled `PER100K` population figure. -/
structure RawPopRow where
  rawFips : Option ℚ
  stname : String
  per100k : ℚ

/-- The raw population reference table. -/
structure RawPop where
  rows : List RawPopRow

/-- A population row after FIPS normalization (and `set_index('FIPS')`). -/
structure PopRow where
  fips : String
  stname : String
  per100k : ℚ
deriving DecidableEq

/-- The normalized population table, indexed by FIPS. -/
structure Pop where
  rows : List PopRow
deriving DecidableEq

/-- `fix_fips` applied to one raw FIPS cell:
`fillna(0).astype('int32').astype('str').str.zfill(5)`. -/
def fixFipsVal (v : Option ℚ) : String :=
  zfill 5 (intToStr (wrap32 (truncQ (v.getD 0))))

/-- `fix_fips` on a wide table: normalize the FIPS column. -/
def fix_fips (df : RawWide) : Wide :=
  { columns := df.columns
    rows := df.rows.map (fun r =>
      { fips := fixFipsVal r.rawFips
        provinceState := r.provinceState
        vals := r.vals }) }

/-- `fix_fips` on the population table. -/
def fix_fips_pop (df : RawPop) : Pop :=
  { rows := df.rows.map (fun r =>
      { fips := fixFipsVal r.rawFips
        stname := r.stname
        per100k := r.per100k }) }

/-- `population.loc[fips, 'PER100K']`: the scaled population figure of the
(unique) population row with the given FIPS. -/
def popLookup (p : Pop) (f : String) : ℚ :=
  ((p.rows.find? (fun r => r.fips == f)).map PopRow.per100k).getD 0

/-- `population.loc[fips, 'STNAME']`: the display name of the (unique)
population row with the given FIPS. -/
def stnameLookup (p : Pop) (f : String) : String :=
  ((p.rows.find? (fun r => r.fips == f)).map PopRow.stname).getD ""

/-- The dictionary of identifier/date lists built by `get_dicts`. -/
structure Dicts where
  all_fips : List String
  state_fips : List String
  county_fips : List String
  pop_fips : List String
  dates : List String
deriving DecidableEq

/-- The county FIPS list of `get_dicts`: sort the confirmed table by FIPS
and take the contiguous row range bounded inclusively by the rows labelled
`"01001"` and `"56045"`. -/
def get_county_fips (df1 : Wide) : List String :=
  let sorted := List.insertionSort (fun a b => strLe a.fips b.fips = true) df1.rows
  let i1 := sorted.findIdx (fun r => r.fips == "01001")
  let i2 := sorted.findIdx (fun r => r.fips == "56045")
  ((sorted.drop i1).take (i2 + 1 - i1)).map WRow.fips

/-- `get_dicts(confirmed, population)`: the identifier lists, the date
list (the confirmed table's columns from position 11 on), and the
state-name dictionary. -/
def get_dicts (df1 : Wide) (df2 : Pop) : Dicts × (String → String) :=
  let pop_fips := df2.rows.map PopRow.fips
  let county_fips := get_county_fips df1
  let state_fips :=
    List.insertionSort (fun a b => strLe a b = true)
      ((pop_fips.dedup).filter (fun f => decide (f ∉ county_fips)))
  let all_fips := List.insertionSort (fun a b => strLe a b = true) ("00000" :: pop_fips)
  let dates := df1.columns.drop 11
  (⟨all_fips, state_fips, county_fips, pop_fips, dates⟩,
   fun f => stnameLookup df2 f)

/-- One record of the long-form table: FIPS, the original date label, the
parsed chronological key of that label, and the two cumulative counts. -/
structure LRow where
  fips : String
  dateLabel : String
  dkey : Nat
  confirmed : ℤ
  deaths : ℤ
deriving DecidableEq

/-- `np.sum(df[date].values)`: the sum of a date column over all rows. -/
def sumCol (t : Wide) (d : String) : ℤ := (t.rows.map (fun r => r.vals d)).sum

/-- `df.loc[int(*df[df['FIPS'] == fips].index), date]`: the date-column
value of the (unique) row with the given FIPS. -/
def countyLook (t : Wide) (f d : String) : ℤ :=
  ((t.rows.find? (fun r => r.fips == f)).map (fun r => r.vals d)).getD 0

/-- `np.sum(df[df['Province_State'] == name][date])`: the sum of a date
column over the rows whose display region matches `name`. -/
def stateSum (t : Wide) (name d : String) : ℤ :=
  ((t.rows.filter (fun r => r.provinceState == name)).map (fun r => r.vals d)).sum

/-- The national (`usa_total`) records of `combine_data`, one per date. -/
def usaRows (df1 df2 : Wide) (dates : List String) : List LRow :=
  dates.map (fun d => ⟨"00000", d, dateKey d, sumCol df1 d, sumCol df2 d⟩)

/-- The county (`counties_dict`) records of `combine_data`, one per
(county FIPS, date) in loop order. -/
def countyRows (df1 df2 : Wide) (county dates : List String) : List LRow :=
  county.flatMap (fun f =>
    dates.map (fun d => ⟨f, d, dateKey d, countyLook df1 f d, countyLook df2 f d⟩))

/-- The state (`states`) records of `combine_data`, one per
(state FIPS, date): sums over the rows whose `Province_State` matches the
state's display name. -/
def stateRows (df1 df2 : Wide) (state dates : List String)
    (dict2 : String → String) : List LRow :=
  state.flatMap (fun f =>
    dates.map (fun d =>
      ⟨f, d, dateKey d, stateSum df1 (dict2 f) d, stateSum df2 (dict2 f) d⟩))

/-- The `sort_index()` order on the long-form table: by FIPS, then by the
parsed (chronological) date key. -/
def rowLe (a b : LRow) : Bool :=
  strLt a.fips b.fips || (a.fips == b.fips && decide (a.dkey ≤ b.dkey))

/-- `combine_data`: concatenate the county, national and state record
collections, parse the date labels, and sort by (FIPS, date). -/
def combine_data (df1 df2 : Wide) (dict1 : Dicts) (dict2 : String → String) : List LRow :=
  List.insertionSort (fun a b => rowLe a b = true)
    (countyRows df1 df2 dict1.county_fips dict1.dates ++
     usaRows df1 df2 dict1.dates ++
     stateRows df1 df2 dict1.state_fips dict1.dates dict2)

/-- The long-form DataFrame being built by the driver: the keyed rows from
`combine_data` plus the derived columns appended so far, each a flat list
aligned positionally with the rows. -/
structure Frame where
  rows : List LRow
  extra : List (String × List ℚ)
deriving DecidableEq

/-- The values of a named column of the frame, in row order. -/
def colValues (fr : Frame) (name : String) : List ℚ :=
  if name == "Confirmed" then fr.rows.map (fun r => (r.confirmed : ℚ))
  else if name == "Deaths" then fr.rows.map (fun r => (r.deaths : ℚ))
  else ((fr.extra.find? (fun c => c.1 == name)).map Prod.snd).getD []

/-- `data.loc[fips, column]`: the sub-series of a column restricted to the
rows of one identifier, in row (chronological) order. -/
def subSeries (fr : Frame) (name f : String) : List ℚ :=
  ((fr.rows.zip (colValues fr name)).filter (fun pr => pr.1.fips == f)).map Prod.snd

/-- `Series.diff(periods=n)`: value minus the value `n` positions earlier,
`NaN` (here `none`) for the first `n` positions. -/
def pdDiff (n : Nat) (v : List ℚ) : List (Option ℚ) :=
  (List.range v.length).map (fun k =>
    if k < n then none else some (v.getD k 0 - v.getD (k - n) 0))

/-- `Series.fillna(x)`. -/
def pdFillna (x : ℚ) (v : List (Option ℚ)) : List ℚ := v.map (fun o => o.getD x)

/-- Division of a Series by a scalar. -/
def pdDivScalar (v : List ℚ) (c : ℚ) : List ℚ := v.map (fun q => q / c)

/-- `round(series, 0)`: elementwise round half to even, still float-valued. -/
def pdRound (v : List ℚ) : List ℚ := v.map (fun q => ((roundHE q : ℤ) : ℚ))

/-- The running total `for fips in state_fips: total += data2.loc[fips, 'PER100K']`. -/
def stateTotal (data2 : Pop) (state : List String) : ℚ :=
  (state.map (fun f => popLookup data2 f)).sum

/-- `new_column(column, kind, data, data2, dict1, days)`: the flat list of
derived values.  Kind `'average'` appends, for each identifier of
`all_fips` in order, `round(sub.diff(days).fillna(0)/days, 0)` over that
identifier's sub-series; kind `'PER100K'` appends the national sub-series
divided by the summed state populations, then each population-table
identifier's sub-series divided by its own scaled population figure. -/
def new_column (column kind : String) (data : Frame) (data2 : Pop)
    (dict1 : Dicts) (days : Nat) : List ℚ :=
  if kind == "average" then
    dict1.all_fips.flatMap (fun f =>
      pdRound (pdDivScalar (pdFillna 0 (pdDiff days (subSeries data column f))) (days : ℚ)))
  else if kind == "PER100K" then
    pdRound (pdDivScalar (subSeries data column "00000") (stateTotal data2 dict1.state_fips)) ++
      dict1.pop_fips.flatMap (fun f =>
        pdRound (pdDivScalar (subSeries data column f) (popLookup data2 f)))
  else []

/-- `final_df[name] = lst`: append a derived column. -/
def addCol (fr : Frame) (name : String) (v : List ℚ) : Frame :=
  { fr with extra := fr.extra ++ [(name, v)] }

/-- `final_df.astype('int')`: truncate every derived value toward zero
(the cumulative columns already hold integers). -/
def astypeInt (fr : Frame) : Frame :=
  { fr with extra := fr.extra.map (fun c => (c.1, c.2.map (fun q => ((truncQ q : ℤ) : ℚ)))) }

/-- The column labels of the persisted CSV, after `reset_index()` turns
the (FIPS, Date) index back into leading columns. -/
def finalColumns (fr : Frame) : List String :=
  "FIPS" :: "Date" :: "Confirmed" :: "Deaths" :: fr.extra.map Prod.fst

/-- Every numeric cell of the frame: the cumulative counts (as rationals)
and all derived-column values. -/
def frameValues (fr : Frame) : List ℚ :=
  fr.rows.map (fun r => (r.confirmed : ℚ)) ++ fr.rows.map (fun r => (r.deaths : ℚ)) ++
    fr.extra.flatMap Prod.snd

/-- The transformation performed by `Dataset` after the stale-data check:
normalize identifiers, build the indexes, reshape, derive the six metric
columns in driver order, and cast to integers. -/
def datasetFrame (c d : RawWide) (p : RawPop) : Frame :=
  let confirmed := fix_fips c
  let deaths := fix_fips d
  let population := fix_fips_pop p
  let dicts := get_dicts confirmed population
  let dict1 := dicts.1
  let f0 : Frame := ⟨combine_data confirmed deaths dict1 dicts.2, []⟩
  let f1 := addCol f0 "New Cases" (new_column "Confirmed" "average" f0 population dict1 1)
  let f2 := addCol f1 "New Deaths" (new_column "Deaths" "average" f1 population dict1 1)
  let f3 := addCol f2 "Cases, 7DMA" (new_column "Confirmed" "average" f2 population dict1 7)
  let f4 := addCol f3 "Deaths, 7DMA" (new_column "Deaths" "average" f3 population dict1 7)
  let f5 := addCol f4 "New Cases Per 100k, 7DMA"
    (new_column "Cases, 7DMA" "PER100K" f4 population dict1 1)
  let f6 := addCol f5 "Deaths Per 100k" (new_column "Deaths" "PER100K" f5 population dict1 1)
  astypeInt f6

/-- The pipeline's fatal error: the module-level `assert` comparing the
final column labels of the two time series (`'Timeseries do not match.'`). -/
inductive PipelineError where
  | staleData
deriving DecidableEq

/-- The driver `Dataset(url1, url2, local1, ...)` on already-loaded raw
tables: check that the two time series end at the same column label, then
run the whole transformation. -/
def Dataset (c d : RawWide) (p : RawPop) : Except PipelineError Frame :=
  if c.columns.getLast? = d.columns.getLast? then .ok (datasetFrame c d p)
  else .error .staleData

/-- The placeholder row a failed FIPS lookup would produce. -/
def defaultWRow : WRow := ⟨"", "", fun _ => 0⟩

/-- The (unique) wide-table row carrying a FIPS value. -/
def rowOf (t : Wide) (f : String) : WRow :=
  (t.rows.find? (fun r => r.fips == f)).getD defaultWRow

/-- The sum, over the county records of a long-form table that carry a
given date label, of one numeric column. -/
def countySumAt (tbl : List LRow) (county : List String) (d : String) (g : LRow → ℤ) : ℤ :=
  ((tbl.filter (fun x => decide (x.fips ∈ county) && (x.dateLabel == d))).map g).sum

/-- The sum, over the county records of a long-form table that carry a
given date label and whose source row's display region matches `name`, of
one numeric column. -/
def countyProvSumAt (t : Wide) (tbl : List LRow) (county : List String)
    (name d : String) (g : LRow → ℤ) : ℤ :=
  ((tbl.filter (fun x => decide (x.fips ∈ county) &&
    ((rowOf t x.fips).provinceState == name) && (x.dateLabel == d))).map g).sum

/-! ### Specification-side definitions

These restate, in the spec's own words, the shapes that the code-side
definitions above are claimed to have; the refinement theorems below
compare the two. -/

/-- The divisor of the per-100k normalization as the spec words it: the
population table's pre-scaled figure for the identifier, except that the
national identifier `"00000"` divides by the sum of all state identifiers'
scaled population figures. -/
def per100kDivisor (data2 : Pop) (dict1 : Dicts) (f : String) : ℚ :=
  if f = "00000" then stateTotal data2 dict1.state_fips else popLookup data2 f

/-- The per-100k column as the spec words it: for each identifier (the
national `"00000"` first, then the population-table identifiers in their
original row order), the value at the k-th row of that identifier's
sub-sequence is `round(source[i, k] / divisor i)`. -/
def per100kSpec (column : String) (data : Frame) (data2 : Pop) (dict1 : Dicts) : List ℚ :=
  ("00000" :: dict1.pop_fips).flatMap (fun f =>
    (List.range (subSeries data column f).length).map (fun k =>
      ((roundHE ((subSeries data column f).getD k 0 / per100kDivisor data2 dict1 f) : ℤ) : ℚ)))

/-- The rolling-average column as the spec words it: for each identifier of
`all_fips` in order, the value at the k-th row of that identifier's
sub-sequence is `round((c[k] - c[k-N]) / N)` for `k ≥ N` and `0` for
`k < N`. -/
def rollingSpec (column : String) (data : Frame) (dict1 : Dicts) (days : Nat) : List ℚ :=
  dict1.all_fips.flatMap (fun i =>
    (List.range (subSeries data column i).length).map (fun k =>
      if k < days then 0
      else ((roundHE (((subSeries data column i).getD k 0 -
        (subSeries data column i).getD (k - days) 0) / (days : ℚ)) : ℤ) : ℚ)))

/-- The column labels the claim expects of the persisted table. -/
def claimedColumns : List String :=
  ["FIPS", "Date", "Confirmed", "Deaths", "New Cases", "New Deaths",
   "Cases 7DMA", "Deaths 7DMA", "New Cases Per 100k 7DMA", "Deaths Per 100k"]

/-- The column labels the code actually produces: the three moving-average
labels contain a comma before `7DMA`. -/
def actualColumns : List String :=
  ["FIPS", "Date", "Confirmed", "Deaths", "New Cases", "New Deaths",
   "Cases, 7DMA", "Deaths, 7DMA", "New Cases Per 100k, 7DMA", "Deaths Per 100k"]

/-! ### Concrete fixtures

The spec's sample scenario (section 8): two counties of one state, two
dates, populations scaled to 5 and 3 (national divisor 8). -/

/-- The eleven metadata column labels of the wide tables, then the date
columns. -/
def sampleCols : List String :=
  ["UID", "iso2", "iso3", "code3", "FIPS", "Admin2", "Province_State",
   "Country_Region", "Lat", "Long_", "Combined_Key", "3/1/20", "3/2/20"]

/-- Confirmed-cases fixture: county 1001 has cumulative `[10, 15]`,
county 1003 has `[20, 22]`. -/
def sampleConfirmed : RawWide :=
  ⟨sampleCols,
   [⟨some 1001, "Alabama", fun s => if s = "3/1/20" then 10 else if s = "3/2/20" then 15 else 0⟩,
    ⟨some 1003, "Alabama", fun s => if s = "3/1/20" then 20 else if s = "3/2/20" then 22 else 0⟩]⟩

/-- Deaths fixture: county 1001 has cumulative `[1, 2]`, county 1003 has
`[3, 5]`. -/
def sampleDeaths : RawWide :=
  ⟨sampleCols,
   [⟨some 1001, "Alabama", fun s => if s = "3/1/20" then 1 else if s = "3/2/20" then 2 else 0⟩,
    ⟨some 1003, "Alabama", fun s => if s = "3/1/20" then 3 else if s = "3/2/20" then 5 else 0⟩]⟩

/-- Population fixture: the state row 1000 (scaled population 8) and the
two county rows (5 and 3). -/
def samplePop : RawPop :=
  ⟨[⟨some 1000, "Alabama", 8⟩, ⟨some 1001, "Alabama", 5⟩, ⟨some 1003, "Alabama", 3⟩]⟩

/-- A confirmed-cases table whose final column label differs from the
deaths table's: its last date column is missing. -/
def staleConfirmed : RawWide := ⟨sampleCols.dropLast, sampleConfirmed.rows⟩

/-- The normalized sample tables and their index dictionaries. -/
def sampleWide : Wide := fix_fips sampleConfirmed

/-- The normalized sample deaths table. -/
def sampleWideDeaths : Wide := fix_fips sampleDeaths

/-- The normalized sample population table. -/
def samplePopTable : Pop := fix_fips_pop samplePop

/-- The index dictionary of the sample scenario. -/
def sampleDicts : Dicts := (get_dicts sampleWide samplePopTable).1

/-- The state-name dictionary of the sample scenario. -/
def sampleNames : String → String := (get_dicts sampleWide samplePopTable).2

/-- The long-form sample table before any derived column. -/
def sampleFrame : Frame := ⟨combine_data sampleWide sampleWideDeaths sampleDicts sampleNames, []⟩

/-- A one-county table whose two date labels sort differently as strings
than as dates: lexicographically `"12/1/20" < "2/1/20"`, chronologically
the other way round. -/
def lexWide : Wide :=
  ⟨["c0", "c1", "c2", "c3", "c4", "c5", "c6", "c7", "c8", "c9", "c10", "2/1/20", "12/1/20"],
   [⟨"01001", "SomeState", fun s => if s = "2/1/20" then 3 else 5⟩]⟩

/-- The index dictionary for `lexWide`. -/
def lexDicts : Dicts := ⟨["00000", "01001"], [], ["01001"], ["01001"], ["2/1/20", "12/1/20"]⟩

/-- A population table whose rows are NOT in ascending FIPS order (row
order 01003, 01001, 01000); every scaled population figure is 1 so the
per-100k values coincide with the source values. -/
def c10Pop : Pop :=
  ⟨[⟨"01003", "Alabama", 1⟩, ⟨"01001", "Alabama", 1⟩, ⟨"01000", "Alabama", 1⟩]⟩

/-- The index dictionary matching `c10Pop`: `pop_fips` keeps the unsorted
row order while `all_fips` is sorted. -/
def c10Dicts : Dicts :=
  ⟨["00000", "01000", "01001", "01003"], ["01000"], ["01001", "01003"],
   ["01003", "01001", "01000"], ["3/1/20", "3/2/20"]⟩

/-- The (identifier, date)-sorted long-form table that `combine_data`
produces for the sample counts, with distinct death counts across
identifiers. -/
def c10Frame : Frame :=
  ⟨[⟨"00000", "3/1/20", 20200301, 30, 4⟩, ⟨"00000", "3/2/20", 20200302, 37, 7⟩,
    ⟨"01000", "3/1/20", 20200301, 30, 4⟩, ⟨"01000", "3/2/20", 20200302, 37, 7⟩,
    ⟨"01001", "3/1/20", 20200301, 10, 1⟩, ⟨"01001", "3/2/20", 20200302, 15, 2⟩,
    ⟨"01003", "3/1/20", 20200301, 20, 3⟩, ⟨"01003", "3/2/20", 20200302, 22, 5⟩], []⟩

/-- A sorted variant of `c10Pop` (row order 01001, 01003, 01000 is still
not sorted; this one is 01000, 01001, 01003). -/
def c10PopSorted : Pop :=
  ⟨[⟨"01000", "Alabama", 1⟩, ⟨"01001", "Alabama", 1⟩, ⟨"01003", "Alabama", 1⟩]⟩

/-- The index dictionary matching `c10PopSorted`. -/
def c10DictsSorted : Dicts :=
  ⟨["00000", "01000", "01001", "01003"], ["01000"], ["01001", "01003"],
   ["01000", "01001", "01003"], ["3/1/20", "3/2/20"]⟩

/-- C9: for a fixed triple of input tables, the pipeline is a function:
any two runs of `Dataset` on the same inputs produce the same result. -/
theorem c9_pipeline_deterministic (c d : RawWide) (p : RawPop)
    (r1 r2 : Except PipelineError Frame)
    (h1 : Dataset c d p = r1) (h2 : Dataset c d p = r2) : r1 = r2 := by
  rw [← h1, ← h2]

/-- C9 witness: two runs on the sample scenario agree. -/
theorem c9_witness :
    Dataset sampleConfirmed sampleDeaths samplePop = Dataset sampleConfirmed sampleDeaths samplePop :=
  c9_pipeline_deterministic sampleConfirmed sampleDeaths samplePop _ _ rfl rfl

/-- C4: if the final column labels of the two time series differ, `Dataset`
fails with the stale-data error whatever else the tables hold (so before
any normalization, index building, reshaping or metric derivation can
matter); if they agree, the run returns the transformed table and no
stale-data error is ever raised. -/
theorem c4_stale_check (c d : RawWide) (p : RawPop) :
    (c.columns.getLast? ≠ d.columns.getLast? → Dataset c d p = .error .staleData) ∧
    (c.columns.getLast? = d.columns.getLast? → Dataset c d p = .ok (datasetFrame c d p)) := by
  constructor
  · intro h
    unfold Dataset
    rw [if_neg h]
  · intro h
    unfold Dataset
    rw [if_pos h]

/-- C4 witness: a table missing its last date column aborts; the matched
sample tables run through. -/
theorem c4_witness :
    staleConfirmed.columns.getLast? ≠ sampleDeaths.columns.getLast? ∧
    Dataset staleConfirmed sampleDeaths samplePop = .error .staleData ∧
    Dataset sampleConfirmed sampleDeaths samplePop =
      .ok (datasetFrame sampleConfirmed sampleDeaths samplePop) :=
  ⟨by decide,
   (c4_stale_check staleConfirmed sampleDeaths samplePop).1 (by decide),
   (c4_stale_check sampleConfirmed sampleDeaths samplePop).2 (by decide)⟩

/-- Every numeric value of the frame produced by the final integer cast is
an integer. -/
theorem frameValues_astypeInt (fr : Frame) :
    ∀ q ∈ frameValues (astypeInt fr), ∃ n : ℤ, q = (n : ℚ) := by
  obtain ⟨rows, extra⟩ := fr
  intro q hq
  simp only [frameValues, astypeInt, List.mem_append, List.mem_map, List.mem_flatMap] at hq
  rcases hq with (⟨r, hr, rfl⟩ | ⟨r, hr, rfl⟩) | ⟨a, ⟨c0, hc0, rfl⟩, hq2⟩
  · exact ⟨r.confirmed, rfl⟩
  · exact ⟨r.deaths, rfl⟩
  · obtain ⟨q0, hq0, rfl⟩ := List.mem_map.1 hq2
    exact ⟨truncQ q0, rfl⟩

/-- C8 counterexample: the actual labels of the three moving-average
columns contain a comma (`'Cases, 7DMA'` and so on), so the persisted
header differs from the claimed one. -/
theorem c8_columns_counterexample :
    finalColumns (datasetFrame sampleConfirmed sampleDeaths samplePop) ≠ claimedColumns := by
  decide

/-- C8 amended: the persisted table has exactly the columns
`[FIPS, Date, Confirmed, Deaths, New Cases, New Deaths, 'Cases, 7DMA',
'Deaths, 7DMA', 'New Cases Per 100k, 7DMA', Deaths Per 100k]` in that
order, and after the final `astype('int')` every numeric value of the
table is an integer. -/
theorem c8_final_table_columns (c d : RawWide) (p : RawPop) :
    finalColumns (datasetFrame c d p) = actualColumns ∧
    ∀ q ∈ frameValues (datasetFrame c d p), ∃ n : ℤ, q = (n : ℚ) := by
  constructor
  · rfl
  · exact frameValues_astypeInt _

theorem isDigit_ofNat : ∀ j, j < 10 → (Char.ofNat (48 + j)).isDigit = true := by decide

theorem natReprAux_digits (fuel : Nat) : ∀ n acc, (∀ c ∈ acc, c.isDigit = true) →
    ∀ c ∈ natReprAux fuel n acc, c.isDigit = true := by
  induction fuel with
  | zero => intro n acc hacc; exact hacc
  | succ fuel ih =>
    intro n acc hacc c hc
    have hcons : ∀ x ∈ Char.ofNat (48 + n % 10) :: acc, x.isDigit = true := by
      intro x hx
      rcases List.mem_cons.1 hx with rfl | hx2
      · exact isDigit_ofNat _ (Nat.mod_lt _ (by omega))
      · exact hacc x hx2
    by_cases h : n < 10
    · simp only [natReprAux, if_pos h] at hc
      exact hcons c hc
    · simp only [natReprAux, if_neg h] at hc
      exact ih (n / 10) _ hcons c hc

theorem natReprAux_length : ∀ fuel k n acc, n < 10 ^ k → 0 < k →
    (natReprAux fuel n acc).length ≤ k + acc.length := by
  intro fuel
  induction fuel with
  | zero =>
    intro k n acc _ _
    simp only [natReprAux]
    omega
  | succ fuel ih =>
    intro k n acc hn hk
    by_cases h : n < 10
    · simp only [natReprAux, if_pos h, List.length_cons]
      omega
    · simp only [natReprAux, if_neg h]
      have hk1 : 1 < k := by
        by_contra hle
        have hk1 : k = 1 := by omega
        subst hk1
        simp at hn
        omega
      have hdiv : n / 10 < 10 ^ (k - 1) := by
        refine (Nat.div_lt_iff_lt_mul (by omega)).2 ?_
        calc n < 10 ^ k := hn
        _ = 10 ^ (k - 1) * 10 := by
          rw [← pow_succ]
          congr 1
          omega
      have := ih (k - 1) (n / 10) (Char.ofNat (48 + n % 10) :: acc) hdiv (by omega)
      simp only [List.length_cons] at this
      omega

theorem zfillList_digits (l : List Char) (hd : ∀ c ∈ l, c.isDigit = true) (hl : l.length ≤ 5) :
    (zfillList 5 l).length = 5 ∧ ∀ c ∈ zfillList 5 l, c.isDigit = true := by
  unfold zfillList
  by_cases h : 5 ≤ l.length
  · rw [if_pos h]
    exact ⟨le_antisymm hl h, hd⟩
  · rw [if_neg h]
    by_cases hnil : l = []
    · rw [if_pos hnil]
      refine ⟨by simp, ?_⟩
      intro c hc
      rw [List.eq_of_mem_replicate hc]
      decide
    · rw [if_neg hnil]
      obtain ⟨c, rest, rfl⟩ : ∃ c rest, l = c :: rest := by
        cases l with
        | nil => exact absurd rfl hnil
        | cons c rest => exact ⟨c, rest, rfl⟩
      simp only [List.headI]
      have hc : c.isDigit = true := hd c (List.mem_cons_self c rest)
      have hsign : ¬(c = '-' ∨ c = '+') := by
        rintro (hh | hh) <;> rw [hh] at hc <;> simp at hc
      rw [if_neg hsign]
      constructor
      · simp only [List.length_append, List.length_replicate]
        omega
      · intro x hx
        rcases List.mem_append.1 hx with hx | hx
        · rw [List.eq_of_mem_replicate hx]
          decide
        · exact hd x hx

theorem wrap32_eq (n : ℤ) (h1 : -(2 ^ 31) ≤ n) (h2 : n < 2 ^ 31) : wrap32 n = n := by
  unfold wrap32
  rw [Int.emod_eq_of_lt (by omega) (by omega)]
  omega

/-- C7 counterexample: a raw value of more than five digits is NOT padded
down to five characters — `fix_fips` maps 123456 to the six-character
string ``123456``, refuting the claim as stated. -/
theorem c7_counterexample :
    fixFipsVal (some 123456) = "123456" ∧ (fixFipsVal (some 123456)).length ≠ 5 := by
  decide

/-- C7 amended: for every raw FIPS cell whose truncated value lies in
[0, 99999] the normalizer produces a 5-character all-digit zero-padded
string, and a missing cell maps to ``00000``; the normalizer is a total
function, so it never fails. -/
theorem c7_fix_fips_contract :
    (∀ v : Option ℚ, 0 ≤ truncQ (v.getD 0) → truncQ (v.getD 0) < 100000 →
      (fixFipsVal v).length = 5 ∧ ∀ c ∈ (fixFipsVal v).data, c.isDigit = true) ∧
    fixFipsVal none = "00000" := by
  constructor
  · intro v h1 h2
    unfold fixFipsVal
    rw [wrap32_eq _ (by omega) (by omega)]
    unfold intToStr
    rw [if_neg (by omega)]
    have habs : (truncQ (v.getD 0)).natAbs < 100000 := by omega
    have hdig : ∀ c ∈ natDigits (truncQ (v.getD 0)).natAbs, c.isDigit = true :=
      natReprAux_digits _ _ [] (by intro c hc; cases hc)
    have hlen : (natDigits (truncQ (v.getD 0)).natAbs).length ≤ 5 := by
      have h5 := natReprAux_length ((truncQ (v.getD 0)).natAbs + 1) 5
        (truncQ (v.getD 0)).natAbs [] (by norm_num [habs]) (by omega)
      simpa [natDigits] using h5
    exact zfillList_digits (natDigits (truncQ (v.getD 0)).natAbs) hdig hlen
  · decide

theorem roundHE_zero : roundHE 0 = 0 := by
  unfold roundHE
  norm_num

theorem map_eq_range_getD (f : ℚ → ℚ) (l : List ℚ) :
    l.map f = (List.range l.length).map (fun k => f (l.getD k 0)) := by
  induction l with
  | nil => rfl
  | cons a t ih =>
    rw [List.length_cons, List.range_succ_eq_map]
    simp only [List.map_cons, List.map_map]
    refine congrArg₂ List.cons rfl ?_
    rw [ih]
    rfl

theorem average_chain (N : Nat) (v : List ℚ) :
    pdRound (pdDivScalar (pdFillna 0 (pdDiff N v)) (N : ℚ)) =
    (List.range v.length).map (fun k =>
      if k < N then 0
      else ((roundHE ((v.getD k 0 - v.getD (k - N) 0) / (N : ℚ)) : ℤ) : ℚ)) := by
  unfold pdRound pdDivScalar pdFillna pdDiff
  rw [List.map_map, List.map_map, List.map_map]
  apply List.map_congr_left
  intro k _
  by_cases h : k < N
  · simp only [Function.comp_apply, if_pos h, Option.getD_none, zero_div, roundHE_zero,
      Int.cast_zero]
  · simp only [Function.comp_apply, if_neg h, Option.getD_some]

theorem flatMap_congr_mem {α β : Type} (l : List α) (f g : α → List β)
    (h : ∀ a ∈ l, f a = g a) : l.flatMap f = l.flatMap g := by
  induction l with
  | nil => rfl
  | cons a t ih =>
    rw [List.flatMap_cons, List.flatMap_cons, h a (List.mem_cons_self a t),
      ih (fun x hx => List.mem_cons.2 (Or.inr hx) |> h x)]

/-- C2: the 'average'-kind derived column equals, identifier by identifier
of `all_fips`, the spec's rolling formula: the k-th value of an
identifier's sub-sequence is `round((c[k] - c[k-N]) / N)` for `k ≥ N` and
`0` for `k < N`, each identifier's sub-sequence treated independently. -/
theorem c2_rolling_average (column : String) (data : Frame) (data2 : Pop) (dict1 : Dicts)
    (days : Nat) (_hdays : 0 < days) :
    new_column column "average" data data2 dict1 days = rollingSpec column data dict1 days := by
  unfold new_column rollingSpec
  rw [if_pos (show (("average" == "average") = true) from rfl)]
  exact congrArg _ (funext fun f => average_chain days (subSeries data column f))

/-- C2 witness: the refinement instantiated on the sample scenario with
window 1. -/
theorem c2_witness :
    0 < 1 ∧ new_column "Confirmed" "average" sampleFrame samplePopTable sampleDicts 1 =
      rollingSpec "Confirmed" sampleFrame sampleDicts 1 :=
  ⟨by decide, c2_rolling_average "Confirmed" sampleFrame samplePopTable sampleDicts 1 (by decide)⟩

/-- C3: the 'PER100K'-kind derived column equals, identifier by
identifier, `round(source[i, d] / population_scaled[i])`, where the
divisor for the national identifier ``00000`` is the sum of all state
identifiers' scaled population figures and for every population-table
identifier it is that identifier's own scaled figure. -/
theorem c3_per100k (column : String) (data : Frame) (data2 : Pop) (dict1 : Dicts)
    (days : Nat) (h0 : "00000" ∉ dict1.pop_fips) :
    new_column column "PER100K" data data2 dict1 days = per100kSpec column data data2 dict1 := by
  unfold new_column per100kSpec
  rw [if_neg (by decide), if_pos (show (("PER100K" == "PER100K") = true) from rfl)]
  rw [List.flatMap_cons]
  congr 1
  · unfold pdRound pdDivScalar
    rw [List.map_map, map_eq_range_getD]
    apply List.map_congr_left
    intro k _
    simp [per100kDivisor]
  · apply flatMap_congr_mem
    intro f hf
    have hne : f ≠ "00000" := fun hh => h0 (hh ▸ hf)
    unfold pdRound pdDivScalar
    rw [List.map_map, map_eq_range_getD]
    apply List.map_congr_left
    intro k _
    simp [per100kDivisor, hne]

/-- C3 witness: the per-100k refinement instantiated on the sample
scenario. -/
theorem c3_witness :
    ("00000" ∉ sampleDicts.pop_fips) ∧
    new_column "Deaths" "PER100K" sampleFrame samplePopTable sampleDicts 1 =
      per100kSpec "Deaths" sampleFrame samplePopTable sampleDicts :=
  ⟨by decide, c3_per100k "Deaths" sampleFrame samplePopTable sampleDicts 1 (by decide)⟩

theorem charListLt_trans : ∀ a b c : List Char,
    charListLt a b = true → charListLt b c = true → charListLt a c = true := by
  intro a
  induction a with
  | nil =>
    intro b c hab hbc
    cases b with
    | nil => simp [charListLt] at hab
    | cons y ys =>
      cases c with
      | nil => simp [charListLt] at hbc
      | cons z zs => simp [charListLt]
  | cons x xs ih =>
    intro b c hab hbc
    cases b with
    | nil => simp [charListLt] at hab
    | cons y ys =>
      cases c with
      | nil => simp [charListLt] at hbc
      | cons z zs =>
        simp only [charListLt] at hab hbc ⊢
        by_cases hxy : x < y
        · by_cases hyz : y < z
          · rw [if_pos (lt_trans hxy hyz)]
          · rw [if_neg hyz] at hbc
            by_cases hzy : z < y
            · rw [if_pos hzy] at hbc
              exact absurd hbc (by simp)
            · rw [if_neg hzy] at hbc
              have hyzeq : y = z := le_antisymm (not_lt.1 hzy) (not_lt.1 hyz)
              rw [if_pos (hyzeq ▸ hxy)]
        · rw [if_neg hxy] at hab
          by_cases hyx : y < x
          · rw [if_pos hyx] at hab
            exact absurd hab (by simp)
          · rw [if_neg hyx] at hab
            have hxyeq : x = y := le_antisymm (not_lt.1 hyx) (not_lt.1 hxy)
            subst hxyeq
            by_cases hyz : x < z
            · rw [if_pos hyz]
            · rw [if_neg hyz] at hbc ⊢
              by_cases hzy : z < x
              · rw [if_pos hzy] at hbc
                exact absurd hbc (by simp)
              · rw [if_neg hzy] at hbc ⊢
                exact ih ys zs hab hbc

theorem charListLt_trichotomy : ∀ a b : List Char,
    charListLt a b = true ∨ a = b ∨ charListLt b a = true := by
  intro a
  induction a with
  | nil =>
    intro b
    cases b with
    | nil => exact Or.inr (Or.inl rfl)
    | cons y ys => exact Or.inl (by simp [charListLt])
  | cons x xs ih =>
    intro b
    cases b with
    | nil => exact Or.inr (Or.inr (by simp [charListLt]))
    | cons y ys =>
      by_cases hxy : x < y
      · exact Or.inl (by simp [charListLt, if_pos hxy])
      · by_cases hyx : y < x
        · exact Or.inr (Or.inr (by simp [charListLt, if_pos hyx]))
        · have hxyeq : x = y := le_antisymm (not_lt.1 hyx) (not_lt.1 hxy)
          subst hxyeq
          rcases ih ys with h | h | h
          · exact Or.inl (by simp [charListLt, if_neg hxy, h])
          · exact Or.inr (Or.inl (by rw [h]))
          · exact Or.inr (Or.inr (by simp [charListLt, if_neg hxy, h]))

theorem strLt_trans (a b c : String) (h1 : strLt a b = true) (h2 : strLt b c = true) :
    strLt a c = true :=
  charListLt_trans _ _ _ h1 h2

theorem strLt_trichotomy (a b : String) : strLt a b = true ∨ a = b ∨ strLt b a = true := by
  rcases charListLt_trichotomy a.data b.data with h | h | h
  · exact Or.inl h
  · exact Or.inr (Or.inl (String.ext h))
  · exact Or.inr (Or.inr h)

theorem rowLe_trans (a b c : LRow) (hab : rowLe a b = true) (hbc : rowLe b c = true) :
    rowLe a c = true := by
  simp only [rowLe, Bool.or_eq_true, Bool.and_eq_true, beq_iff_eq, decide_eq_true_eq]
    at hab hbc ⊢
  rcases hab with h1 | ⟨h1, h1le⟩
  · rcases hbc with h2 | ⟨h2, _⟩
    · exact Or.inl (strLt_trans _ _ _ h1 h2)
    · exact Or.inl (h2 ▸ h1)
  · rcases hbc with h2 | ⟨h2, h2le⟩
    · exact Or.inl (h1 ▸ h2)
    · exact Or.inr ⟨h1.trans h2, le_trans h1le h2le⟩

theorem rowLe_total (a b : LRow) : (rowLe a b || rowLe b a) = true := by
  simp only [rowLe, Bool.or_eq_true, Bool.and_eq_true, beq_iff_eq, decide_eq_true_eq]
  rcases strLt_trichotomy a.fips b.fips with h | h | h
  · exact Or.inl (Or.inl h)
  · rcases le_total a.dkey b.dkey with hle | hle
    · exact Or.inl (Or.inr ⟨h, hle⟩)
    · exact Or.inr (Or.inr ⟨h.symm, hle⟩)
  · exact Or.inr (Or.inl h)


/-- C6: the table returned by `combine_data` is sorted ascending by
(identifier, parsed date key), where every record's key is the one parsed
from its `m/d/yy` label; and on a concrete input whose labels are
`"2/1/20"` and `"12/1/20"` the result is not sorted by lexicographic order
of the original date-label strings. -/
theorem c6_sorted_chronologically :
    (∀ (df1 df2 : Wide) (dict1 : Dicts) (dict2 : String → String),
      (combine_data df1 df2 dict1 dict2).Pairwise
        (fun a b => strLt a.fips b.fips = true ∨ (a.fips = b.fips ∧ a.dkey ≤ b.dkey)) ∧
      ∀ e ∈ combine_data df1 df2 dict1 dict2, e.dkey = dateKey e.dateLabel) ∧
    ¬ (combine_data lexWide lexWide lexDicts (fun _ => "")).Pairwise
        (fun a b => strLt a.fips b.fips = true ∨
          (a.fips = b.fips ∧ strLe a.dateLabel b.dateLabel = true)) := by
  constructor
  · intro df1 df2 dict1 dict2
    constructor
    · haveI hT : IsTrans LRow (fun a b => rowLe a b = true) := ⟨rowLe_trans⟩
      haveI hTot : IsTotal LRow (fun a b => rowLe a b = true) :=
        ⟨fun a b => by
          have h2 := rowLe_total a b
          rwa [Bool.or_eq_true] at h2⟩
      have h := List.sorted_insertionSort (fun a b => rowLe a b = true)
        (countyRows df1 df2 dict1.county_fips dict1.dates ++
         usaRows df1 df2 dict1.dates ++
         stateRows df1 df2 dict1.state_fips dict1.dates dict2)
      exact h.imp (fun hab => by
        simpa only [rowLe, Bool.or_eq_true, Bool.and_eq_true, beq_iff_eq,
          decide_eq_true_eq] using hab)
    · intro e he
      rw [combine_data, List.mem_insertionSort] at he
      rcases List.mem_append.1 he with he | he2
      · rcases List.mem_append.1 he with he | he
        · obtain ⟨f, _, he3⟩ := List.mem_flatMap.1 he
          obtain ⟨d, _, rfl⟩ := List.mem_map.1 he3
          rfl
        · obtain ⟨d, _, rfl⟩ := List.mem_map.1 he
          rfl
      · obtain ⟨f, _, he3⟩ := List.mem_flatMap.1 he2
        obtain ⟨d, _, rfl⟩ := List.mem_map.1 he3
        rfl
  · decide

/-- C5: given a population table containing every identifier of the county
range, the county and state identifier sets partition the population
identifier set: their union is `pop_fips` and they are disjoint. -/
theorem c5_fips_partition (df1 : Wide) (df2 : Pop)
    (hsub : ∀ f ∈ (get_dicts df1 df2).1.county_fips, f ∈ (get_dicts df1 df2).1.pop_fips) :
    (get_dicts df1 df2).1.county_fips.toFinset ∪ (get_dicts df1 df2).1.state_fips.toFinset =
      (get_dicts df1 df2).1.pop_fips.toFinset ∧
    Disjoint (get_dicts df1 df2).1.county_fips.toFinset
      (get_dicts df1 df2).1.state_fips.toFinset := by
  have hcf : (get_dicts df1 df2).1.county_fips = get_county_fips df1 := rfl
  have hpf : (get_dicts df1 df2).1.pop_fips = df2.rows.map PopRow.fips := rfl
  have hsf : (get_dicts df1 df2).1.state_fips =
      List.insertionSort (fun a b => strLe a b = true)
        (((df2.rows.map PopRow.fips).dedup).filter
          (fun f => decide (f ∉ get_county_fips df1))) := rfl
  rw [hcf, hpf] at hsub
  rw [hcf, hpf, hsf]
  constructor
  · ext x
    simp only [Finset.mem_union, List.mem_toFinset, List.mem_insertionSort, List.mem_filter,
      List.mem_dedup, decide_eq_true_eq]
    constructor
    · rintro (hx | ⟨hx, _⟩)
      · exact hsub x hx
      · exact hx
    · intro hx
      by_cases hc : x ∈ get_county_fips df1
      · exact Or.inl hc
      · exact Or.inr ⟨hx, hc⟩
  · rw [Finset.disjoint_left]
    intro x hx hx2
    simp only [List.mem_toFinset, List.mem_insertionSort, List.mem_filter,
      List.mem_dedup, decide_eq_true_eq] at hx hx2
    exact hx2.2 hx

/-- C5 witness: the sample scenario's population table is well formed and
the partition holds there. -/
theorem c5_witness :
    (∀ f ∈ sampleDicts.county_fips, f ∈ sampleDicts.pop_fips) ∧
    (sampleDicts.county_fips.toFinset ∪ sampleDicts.state_fips.toFinset =
      sampleDicts.pop_fips.toFinset ∧
    Disjoint sampleDicts.county_fips.toFinset sampleDicts.state_fips.toFinset) :=
  ⟨by decide, c5_fips_partition sampleWide samplePopTable (by decide)⟩


theorem find?_fips_nodup : ∀ (l : List WRow), (l.map WRow.fips).Nodup →
    ∀ r ∈ l, l.find? (fun x => x.fips == r.fips) = some r := by
  intro l
  induction l with
  | nil => intro _ r hr; cases hr
  | cons a t ih =>
    intro hn r hr
    rw [List.map_cons, List.nodup_cons] at hn
    rcases List.mem_cons.1 hr with rfl | hr2
    · exact List.find?_cons_of_pos _ (by simp)
    · have hne : ¬(a.fips == r.fips) = true := by
        simp only [beq_iff_eq]
        intro he
        exact hn.1 (he ▸ List.mem_map_of_mem WRow.fips hr2)
      rw [@List.find?_cons_of_neg _ (fun x => x.fips == r.fips) a t hne]
      exact ih hn.2 r hr2

theorem rowOf_mem (l : List WRow) (t : Wide) (ht : t.rows = l)
    (hn : (l.map WRow.fips).Nodup) (r : WRow) (hr : r ∈ l) : rowOf t r.fips = r := by
  unfold rowOf
  rw [ht, find?_fips_nodup l hn r hr]
  rfl

theorem countyLook_eq_rowOf (t : Wide) (f d : String) :
    countyLook t f d = (rowOf t f).vals d := by
  unfold countyLook rowOf
  cases t.rows.find? (fun r => r.fips == f) with
  | none => rfl
  | some r => rfl

theorem sum_over_county (l : List WRow) (county : List String)
    (hp : (l.map WRow.fips).Perm county) (gl : String → ℤ) (g : WRow → ℤ)
    (hgl : ∀ r ∈ l, gl r.fips = g r) :
    (county.map gl).sum = (l.map g).sum := by
  have h1 : (county.map gl).sum = ((l.map WRow.fips).map gl).sum :=
    ((hp.symm).map gl).sum_eq
  rw [h1, List.map_map]
  exact congrArg List.sum (List.map_congr_left hgl)

theorem sum_over_county_filter (l : List WRow) (county : List String)
    (hp : (l.map WRow.fips).Perm county) (c : String → Bool) (cr : WRow → Bool)
    (hc : ∀ r ∈ l, c r.fips = cr r) (gl : String → ℤ) (g : WRow → ℤ)
    (hgl : ∀ r ∈ l, gl r.fips = g r) :
    ((county.filter c).map gl).sum = ((l.filter cr).map g).sum := by
  have h1 : (county.filter c).Perm ((l.map WRow.fips).filter c) := ((hp.symm).filter c)
  have h2 : ((county.filter c).map gl).sum = (((l.map WRow.fips).filter c).map gl).sum :=
    (h1.map gl).sum_eq
  rw [h2, List.filter_map]
  have h3 : l.filter (c ∘ WRow.fips) = l.filter cr := List.filter_congr (fun r hr => hc r hr)
  rw [h3, List.map_map]
  refine congrArg List.sum (List.map_congr_left ?_)
  intro r hr
  exact hgl r (List.mem_of_mem_filter hr)

theorem nodup_filter_beq (dates : List String) (hd : dates.Nodup) (d : String)
    (hmem : d ∈ dates) : dates.filter (fun x => x == d) = [d] := by
  induction dates with
  | nil => cases hmem
  | cons a t ih =>
    rw [List.nodup_cons] at hd
    rcases List.mem_cons.1 hmem with rfl | hm2
    · rw [List.filter_cons_of_pos (by simp)]
      have h4 : t.filter (fun x => x == d) = [] := by
        rw [List.filter_eq_nil_iff]
        intro x hx hbeq
        rw [beq_iff_eq] at hbeq
        exact hd.1 (hbeq ▸ hx)
      rw [h4]
    · have hne : ¬(a == d) = true := by
        rw [beq_iff_eq]
        intro he
        exact hd.1 (he ▸ hm2)
      rw [@List.filter_cons_of_neg _ (fun x => x == d) a t hne]
      exact ih hd.2 hm2

theorem flatMap_if_singleton {α β : Type} (l : List α) (p : α → Bool) (g : α → β) :
    (l.flatMap (fun a => if p a then [g a] else [])) = (l.filter p).map g := by
  induction l with
  | nil => rfl
  | cons a t ih =>
    rw [List.flatMap_cons, ih]
    by_cases h : p a = true
    · rw [if_pos h, List.filter_cons_of_pos h, List.map_cons]
      rfl
    · rw [if_neg h, List.filter_cons_of_neg (by simpa using h)]
      rfl

theorem filterSum_concat (df1 df2 : Wide) (county state dates : List String)
    (dict2 : String → String) (d : String) (g : LRow → ℤ) (q : LRow → Bool) (cf : String → Bool)
    (hd : dates.Nodup) (hdm : d ∈ dates)
    (hqc : ∀ f ∈ county, ∀ d2 ∈ dates,
      q ⟨f, d2, dateKey d2, countyLook df1 f d2, countyLook df2 f d2⟩ = (cf f && (d2 == d)))
    (hqu : ∀ d2 ∈ dates, q ⟨"00000", d2, dateKey d2, sumCol df1 d2, sumCol df2 d2⟩ = false)
    (hqs : ∀ s ∈ state, ∀ d2 ∈ dates,
      q ⟨s, d2, dateKey d2, stateSum df1 (dict2 s) d2, stateSum df2 (dict2 s) d2⟩ = false) :
    (((countyRows df1 df2 county dates ++ usaRows df1 df2 dates ++
       stateRows df1 df2 state dates dict2).filter q).map g).sum =
    ((county.filter cf).map
      (fun f => g ⟨f, d, dateKey d, countyLook df1 f d, countyLook df2 f d⟩)).sum := by
  rw [List.filter_append, List.filter_append]
  have hu : (usaRows df1 df2 dates).filter q = [] := by
    rw [List.filter_eq_nil_iff]
    intro x hx
    obtain ⟨d2, hd2, rfl⟩ := List.mem_map.1 hx
    simp [hqu d2 hd2]
  have hs : (stateRows df1 df2 state dates dict2).filter q = [] := by
    rw [List.filter_eq_nil_iff]
    intro x hx
    obtain ⟨s, hsm, hx2⟩ := List.mem_flatMap.1 hx
    obtain ⟨d2, hd2, rfl⟩ := List.mem_map.1 hx2
    simp [hqs s hsm d2 hd2]
  rw [hu, hs]
  simp only [List.append_nil]
  unfold countyRows
  rw [List.filter_flatMap]
  have hcg : ∀ f ∈ county,
      (List.filter q (dates.map (fun d2 =>
        (⟨f, d2, dateKey d2, countyLook df1 f d2, countyLook df2 f d2⟩ : LRow)))) =
      if cf f then [(⟨f, d, dateKey d, countyLook df1 f d, countyLook df2 f d⟩ : LRow)]
      else [] := by
    intro f hf
    rw [List.filter_map]
    have hcong : dates.filter
        ((fun x => q x) ∘ fun d2 =>
          (⟨f, d2, dateKey d2, countyLook df1 f d2, countyLook df2 f d2⟩ : LRow)) =
        dates.filter (fun d2 => cf f && (d2 == d)) :=
      List.filter_congr (fun d2 hd2 => hqc f hf d2 hd2)
    rw [hcong]
    by_cases hcf : cf f = true
    · have hstep : dates.filter (fun d2 => cf f && (d2 == d)) = dates.filter (fun x => x == d) :=
        List.filter_congr (fun d2 _ => by rw [hcf, Bool.true_and])
      rw [hstep, nodup_filter_beq dates hd d hdm, if_pos hcf]
      rfl
    · have hstep : dates.filter (fun d2 => cf f && (d2 == d)) = [] := by
        rw [List.filter_eq_nil_iff]
        intro x _ hq
        rw [Bool.and_eq_true] at hq
        exact hcf hq.1
      rw [hstep, if_neg hcf]
      rfl
  rw [List.flatMap_congr hcg, flatMap_if_singleton, List.map_map]
  rfl

/-- C1: in the long-form table built by `combine_data` on well-formed
inputs (each wide table holds exactly one row per county identifier, no
duplicate dates, and the three identifier kinds are disjoint), every
national record's Confirmed and Deaths values equal the sums of the
table's county records' values at the same date, and every state
record's values equal the sums over the county records at that date
whose source row's display region (`Province_State`) matches that
state's name. -/
theorem c1_aggregation (df1 df2 : Wide) (dict1 : Dicts) (dict2 : String → String)
    (hp1 : (df1.rows.map WRow.fips).Perm dict1.county_fips)
    (hn1 : (df1.rows.map WRow.fips).Nodup)
    (hp2 : (df2.rows.map WRow.fips).Perm dict1.county_fips)
    (hn2 : (df2.rows.map WRow.fips).Nodup)
    (hd : dict1.dates.Nodup)
    (h0c : "00000" ∉ dict1.county_fips)
    (h0s : "00000" ∉ dict1.state_fips)
    (hsc : ∀ f ∈ dict1.state_fips, f ∉ dict1.county_fips) :
    ∀ e ∈ combine_data df1 df2 dict1 dict2,
      (e.fips = "00000" →
        e.confirmed = countySumAt (combine_data df1 df2 dict1 dict2) dict1.county_fips
          e.dateLabel LRow.confirmed ∧
        e.deaths = countySumAt (combine_data df1 df2 dict1 dict2) dict1.county_fips
          e.dateLabel LRow.deaths) ∧
      (e.fips ∈ dict1.state_fips →
        e.confirmed = countyProvSumAt df1 (combine_data df1 df2 dict1 dict2) dict1.county_fips
          (dict2 e.fips) e.dateLabel LRow.confirmed ∧
        e.deaths = countyProvSumAt df2 (combine_data df1 df2 dict1 dict2) dict1.county_fips
          (dict2 e.fips) e.dateLabel LRow.deaths) := by
  intro e he
  have hperm : (combine_data df1 df2 dict1 dict2).Perm
      (countyRows df1 df2 dict1.county_fips dict1.dates ++
       usaRows df1 df2 dict1.dates ++
       stateRows df1 df2 dict1.state_fips dict1.dates dict2) :=
    List.perm_insertionSort _ _
  have hmem : e ∈ countyRows df1 df2 dict1.county_fips dict1.dates ++
      usaRows df1 df2 dict1.dates ++
      stateRows df1 df2 dict1.state_fips dict1.dates dict2 := hperm.mem_iff.1 he
  have hCS : ∀ (d : String) (g : LRow → ℤ),
      countySumAt (combine_data df1 df2 dict1 dict2) dict1.county_fips d g =
      countySumAt (countyRows df1 df2 dict1.county_fips dict1.dates ++
        usaRows df1 df2 dict1.dates ++
        stateRows df1 df2 dict1.state_fips dict1.dates dict2) dict1.county_fips d g := by
    intro d g
    unfold countySumAt
    exact ((hperm.filter _).map g).sum_eq
  have hPS : ∀ (t : Wide) (name d : String) (g : LRow → ℤ),
      countyProvSumAt t (combine_data df1 df2 dict1 dict2) dict1.county_fips name d g =
      countyProvSumAt t (countyRows df1 df2 dict1.county_fips dict1.dates ++
        usaRows df1 df2 dict1.dates ++
        stateRows df1 df2 dict1.state_fips dict1.dates dict2) dict1.county_fips name d g := by
    intro t name d g
    unfold countyProvSumAt
    exact ((hperm.filter _).map g).sum_eq
  constructor
  · -- the national rows
    intro h00
    rcases List.mem_append.1 hmem with hcu | hst
    rcases List.mem_append.1 hcu with hcc | hu
    · obtain ⟨f, hf, hx⟩ := List.mem_flatMap.1 hcc
      obtain ⟨d2, hd2, rfl⟩ := List.mem_map.1 hx
      exact absurd (h00 ▸ hf) h0c
    · obtain ⟨d2, hd2, rfl⟩ := List.mem_map.1 hu
      dsimp only at h00 ⊢
      have key : ∀ (t : Wide), (t.rows.map WRow.fips).Perm dict1.county_fips →
          (t.rows.map WRow.fips).Nodup → ∀ g : LRow → ℤ,
          (∀ f d3, g ⟨f, d3, dateKey d3, countyLook df1 f d3, countyLook df2 f d3⟩ =
            countyLook t f d3) →
          countySumAt (combine_data df1 df2 dict1 dict2) dict1.county_fips d2 g =
            sumCol t d2 := by
        intro t hp hn g hg
        rw [hCS d2 g]
        unfold countySumAt
        rw [filterSum_concat df1 df2 dict1.county_fips dict1.state_fips dict1.dates dict2 d2 g
          (fun x => decide (x.fips ∈ dict1.county_fips) && (x.dateLabel == d2))
          (fun _ => true) hd hd2
          (fun f hf d3 _ => by simp [hf])
          (fun d3 _ => by simp [h0c])
          (fun s hsm d3 _ => by simp [hsc s hsm])]
        rw [List.filter_true]
        unfold sumCol
        refine sum_over_county t.rows dict1.county_fips hp _ (fun r => r.vals d2) ?_
        intro r hr
        rw [hg r.fips d2, countyLook_eq_rowOf, rowOf_mem t.rows t rfl hn r hr]
      constructor
      · exact (key df1 hp1 hn1 LRow.confirmed (fun f d3 => rfl)).symm
      · exact (key df2 hp2 hn2 LRow.deaths (fun f d3 => rfl)).symm
    · obtain ⟨s, hsm, hx⟩ := List.mem_flatMap.1 hst
      obtain ⟨d2, hd2, rfl⟩ := List.mem_map.1 hx
      exact absurd (h00 ▸ hsm) h0s
  · -- the state rows
    intro hstate
    rcases List.mem_append.1 hmem with hcu | hst
    rcases List.mem_append.1 hcu with hcc | hu
    · obtain ⟨f, hf, hx⟩ := List.mem_flatMap.1 hcc
      obtain ⟨d2, hd2, rfl⟩ := List.mem_map.1 hx
      exact absurd hf (hsc _ hstate)
    · obtain ⟨d2, hd2, rfl⟩ := List.mem_map.1 hu
      exact absurd hstate h0s
    obtain ⟨s, hsm, hx⟩ := List.mem_flatMap.1 hst
    obtain ⟨d2, hd2, rfl⟩ := List.mem_map.1 hx
    dsimp only at hstate ⊢
    have key : ∀ (t : Wide), (t.rows.map WRow.fips).Perm dict1.county_fips →
        (t.rows.map WRow.fips).Nodup → ∀ g : LRow → ℤ,
        (∀ f d3, g ⟨f, d3, dateKey d3, countyLook df1 f d3, countyLook df2 f d3⟩ =
          countyLook t f d3) →
        countyProvSumAt t (combine_data df1 df2 dict1 dict2) dict1.county_fips
          (dict2 s) d2 g = stateSum t (dict2 s) d2 := by
      intro t hp hn g hg
      rw [hPS t (dict2 s) d2 g]
      unfold countyProvSumAt
      have hmain := filterSum_concat df1 df2 dict1.county_fips dict1.state_fips dict1.dates
        dict2 d2 g
        (fun x => decide (x.fips ∈ dict1.county_fips) &&
          ((rowOf t x.fips).provinceState == dict2 s) && (x.dateLabel == d2))
        (fun f => (rowOf t f).provinceState == dict2 s) hd hd2
        (fun f hf d3 _ => by simp [hf])
        (fun d3 _ => by simp [h0c])
        (fun s2 hsm2 d3 _ => by simp [hsc s2 hsm2])
      rw [hmain]
      unfold stateSum
      refine sum_over_county_filter t.rows dict1.county_fips hp _
        (fun r => r.provinceState == dict2 s) ?_ _ (fun r => r.vals d2) ?_
      · intro r hr
        rw [rowOf_mem t.rows t rfl hn r hr]
      · intro r hr
        rw [hg r.fips d2, countyLook_eq_rowOf, rowOf_mem t.rows t rfl hn r hr]
    constructor
    · exact (key df1 hp1 hn1 LRow.confirmed (fun f d3 => rfl)).symm
    · exact (key df2 hp2 hn2 LRow.deaths (fun f d3 => rfl)).symm

/-- C1 witness: the aggregation property instantiated on the sample
scenario (two counties of one state, two dates). -/
theorem c1_witness :
    (sampleWide.rows.map WRow.fips).Perm sampleDicts.county_fips ∧
    sampleDicts.dates.Nodup ∧
    ∀ e ∈ combine_data sampleWide sampleWideDeaths sampleDicts sampleNames,
      (e.fips = "00000" →
        e.confirmed = countySumAt (combine_data sampleWide sampleWideDeaths sampleDicts
          sampleNames) sampleDicts.county_fips e.dateLabel LRow.confirmed ∧
        e.deaths = countySumAt (combine_data sampleWide sampleWideDeaths sampleDicts
          sampleNames) sampleDicts.county_fips e.dateLabel LRow.deaths) ∧
      (e.fips ∈ sampleDicts.state_fips →
        e.confirmed = countyProvSumAt sampleWide (combine_data sampleWide sampleWideDeaths
          sampleDicts sampleNames) sampleDicts.county_fips (sampleNames e.fips)
          e.dateLabel LRow.confirmed ∧
        e.deaths = countyProvSumAt sampleWideDeaths (combine_data sampleWide sampleWideDeaths
          sampleDicts sampleNames) sampleDicts.county_fips (sampleNames e.fips)
          e.dateLabel LRow.deaths) := by
  have hp1 : (sampleWide.rows.map WRow.fips).Perm sampleDicts.county_fips := by
    have h : sampleWide.rows.map WRow.fips = sampleDicts.county_fips := by decide
    rw [h]
  have hp2 : (sampleWideDeaths.rows.map WRow.fips).Perm sampleDicts.county_fips := by
    have h : sampleWideDeaths.rows.map WRow.fips = sampleDicts.county_fips := by decide
    rw [h]
  exact ⟨hp1, by decide,
    c1_aggregation sampleWide sampleWideDeaths sampleDicts sampleNames
      hp1 (by decide) hp2 (by decide) (by decide) (by decide) (by decide)
      (by decide)⟩

theorem roundHE_intCast (n : ℤ) : roundHE (n : ℚ) = n := by
  unfold roundHE
  simp

theorem zip_map_filter_snd {α β : Type} (l : List α) (g : α → β) (p : α → Bool) :
    ((l.zip (l.map g)).filter (fun pr => p pr.1)).map Prod.snd = (l.filter p).map g := by
  induction l with
  | nil => rfl
  | cons a t ih =>
    rw [List.map_cons, List.zip_cons_cons]
    by_cases h : p a = true
    · rw [List.filter_cons_of_pos h, @List.filter_cons_of_pos _ (fun pr => p pr.1) (a, g a) _ h,
        List.map_cons, ih]
      rfl
    · rw [@List.filter_cons_of_neg _ (fun pr => p pr.1) (a, g a) (t.zip (List.map g t)) h,
        @List.filter_cons_of_neg _ p a t h, ih]

theorem zip_self_map {α β : Type} (l : List α) (u : α → β) :
    ∀ pr ∈ l.zip (l.map u), pr.2 = u pr.1 := by
  induction l with
  | nil => intro pr hpr; cases hpr
  | cons a t ih =>
    intro pr hpr
    rw [List.map_cons, List.zip_cons_cons] at hpr
    rcases List.mem_cons.1 hpr with rfl | h2
    · rfl
    · exact ih pr h2

theorem zip_flatMap_rel {α β γ : Type} (R : β → γ → Prop) : ∀ (L : List α)
    (g : α → List β) (h : α → List γ),
    (∀ a ∈ L, (g a).length = (h a).length ∧ ∀ pr ∈ (g a).zip (h a), R pr.1 pr.2) →
    ∀ pr ∈ (L.flatMap g).zip (L.flatMap h), R pr.1 pr.2 := by
  intro L
  induction L with
  | nil => intro g h _ pr hpr; cases hpr
  | cons a t ih =>
    intro g h hall pr hpr
    rw [List.flatMap_cons, List.flatMap_cons,
      List.zip_append (hall a (List.mem_cons_self a t)).1] at hpr
    rcases List.mem_append.1 hpr with h1 | h2
    · exact (hall a (List.mem_cons_self a t)).2 pr h1
    · exact ih g h (fun x hx => hall x (List.mem_cons.2 (Or.inr hx))) pr h2

theorem subSeries_deaths (fr : Frame) (f : String) :
    subSeries fr "Deaths" f =
      (fr.rows.filter (fun r => r.fips == f)).map (fun r => (r.deaths : ℚ)) := by
  unfold subSeries colValues
  rw [if_neg (by decide), if_pos (by rfl)]
  exact zip_map_filter_snd fr.rows (fun r => (r.deaths : ℚ)) (fun r => r.fips == f)

theorem new_column_per100k_order (column : String) (data : Frame) (data2 : Pop)
    (dict1 : Dicts) (days : Nat) (h0 : "00000" ∉ dict1.pop_fips) :
    new_column column "PER100K" data data2 dict1 days =
      ("00000" :: dict1.pop_fips).flatMap (fun f =>
        pdRound (pdDivScalar (subSeries data column f) (per100kDivisor data2 dict1 f))) := by
  unfold new_column
  rw [if_neg (by decide), if_pos (show (("PER100K" == "PER100K") = true) from rfl)]
  rw [List.flatMap_cons]
  congr 1
  apply flatMap_congr_mem
  intro f hf
  have hne : f ≠ "00000" := fun hh => h0 (hh ▸ hf)
  rw [show per100kDivisor data2 dict1 f = popLookup data2 f from if_neg hne]

/-- C10: for kind 'PER100K', `new_column` returns the national values
first and then each population-table identifier's values in the
population table's original row order; when `pop_fips` is sorted
ascending, contains no ``00000`` (every entry sorting after it), and the
table is grouped by `all_fips`, the positional assignment places every
value on its intended row; and on a concrete input whose `pop_fips` is
NOT sorted, some row receives another identifier's value. -/
theorem c10_per100k_placement :
    (∀ (column : String) (data : Frame) (data2 : Pop) (dict1 : Dicts) (days : Nat),
      "00000" ∉ dict1.pop_fips →
      new_column column "PER100K" data data2 dict1 days =
        ("00000" :: dict1.pop_fips).flatMap (fun f =>
          pdRound (pdDivScalar (subSeries data column f) (per100kDivisor data2 dict1 f)))) ∧
    (∀ (data : Frame) (data2 : Pop) (dict1 : Dicts) (days : Nat),
      dict1.pop_fips.Pairwise (fun a b => strLe a b = true) →
      (∀ f ∈ dict1.pop_fips, strLe "00000" f = true) →
      "00000" ∉ dict1.pop_fips →
      dict1.all_fips = List.insertionSort (fun a b => strLe a b = true)
        ("00000" :: dict1.pop_fips) →
      data.rows = dict1.all_fips.flatMap (fun f => data.rows.filter (fun r => r.fips == f)) →
      ∀ pr ∈ data.rows.zip (new_column "Deaths" "PER100K" data data2 dict1 days),
        pr.2 = ((roundHE ((pr.1.deaths : ℚ) / per100kDivisor data2 dict1 pr.1.fips) : ℤ) : ℚ)) ∧
    ¬ (∀ pr ∈ c10Frame.rows.zip (new_column "Deaths" "PER100K" c10Frame c10Pop c10Dicts 1),
        pr.2 = ((roundHE ((pr.1.deaths : ℚ) / per100kDivisor c10Pop c10Dicts pr.1.fips) : ℤ) : ℚ)) := by
  refine ⟨fun column data data2 dict1 days h0 =>
    new_column_per100k_order column data data2 dict1 days h0, ?_, ?_⟩
  · intro data data2 dict1 days hsort h0le h0 hall hgrp pr hpr
    have hcons : ("00000" :: dict1.pop_fips).Pairwise (fun a b => strLe a b = true) :=
      List.pairwise_cons.2 ⟨h0le, hsort⟩
    have hall2 : dict1.all_fips = "00000" :: dict1.pop_fips := by
      rw [hall]
      exact List.Sorted.insertionSort_eq hcons
    have hlst : new_column "Deaths" "PER100K" data data2 dict1 days =
        ("00000" :: dict1.pop_fips).flatMap (fun f =>
          (data.rows.filter (fun r => r.fips == f)).map
            (fun r => ((roundHE ((r.deaths : ℚ) / per100kDivisor data2 dict1 f) : ℤ) : ℚ))) := by
      rw [new_column_per100k_order "Deaths" data data2 dict1 days h0]
      apply List.flatMap_congr
      intro f _
      rw [subSeries_deaths]
      unfold pdRound pdDivScalar
      rw [List.map_map, List.map_map]
      rfl
    rw [hgrp, hall2, hlst] at hpr
    have main := zip_flatMap_rel
      (fun (b : LRow) (c : ℚ) =>
        c = ((roundHE ((b.deaths : ℚ) / per100kDivisor data2 dict1 b.fips) : ℤ) : ℚ))
      ("00000" :: dict1.pop_fips)
      (fun f => data.rows.filter (fun r => r.fips == f))
      (fun f => (data.rows.filter (fun r => r.fips == f)).map
        (fun r => ((roundHE ((r.deaths : ℚ) / per100kDivisor data2 dict1 f) : ℤ) : ℚ)))
      (by
        intro f hf
        refine ⟨(List.length_map _ _).symm, ?_⟩
        intro pr2 hpr2
        have h2 := zip_self_map _ _ pr2 hpr2
        obtain ⟨x, y⟩ := pr2
        have hmem2 : x ∈ data.rows.filter (fun r => r.fips == f) := (List.of_mem_zip hpr2).1
        have hfips : x.fips = f := by
          have h3 := List.of_mem_filter hmem2
          simpa using h3
        rw [h2, hfips])
    exact main pr hpr
  · intro hAll
    have h0c10 : "00000" ∉ c10Dicts.pop_fips := by decide
    have hlist : new_column "Deaths" "PER100K" c10Frame c10Pop c10Dicts 1 =
        [(4:ℚ), 7, 3, 5, 1, 2, 4, 7] := by
      rw [new_column_per100k_order "Deaths" c10Frame c10Pop c10Dicts 1 h0c10]
      have hL : ("00000" :: c10Dicts.pop_fips) = ["00000", "01003", "01001", "01000"] := rfl
      rw [hL, List.flatMap_cons, List.flatMap_cons, List.flatMap_cons, List.flatMap_cons,
        List.flatMap_nil, List.append_nil]
      rw [subSeries_deaths, subSeries_deaths, subSeries_deaths, subSeries_deaths]
      rw [show c10Frame.rows.filter (fun r => r.fips == "00000") =
        [⟨"00000", "3/1/20", 20200301, 30, 4⟩, ⟨"00000", "3/2/20", 20200302, 37, 7⟩] from
        by decide]
      rw [show c10Frame.rows.filter (fun r => r.fips == "01003") =
        [⟨"01003", "3/1/20", 20200301, 20, 3⟩, ⟨"01003", "3/2/20", 20200302, 22, 5⟩] from
        by decide]
      rw [show c10Frame.rows.filter (fun r => r.fips == "01001") =
        [⟨"01001", "3/1/20", 20200301, 10, 1⟩, ⟨"01001", "3/2/20", 20200302, 15, 2⟩] from
        by decide]
      rw [show c10Frame.rows.filter (fun r => r.fips == "01000") =
        [⟨"01000", "3/1/20", 20200301, 30, 4⟩, ⟨"01000", "3/2/20", 20200302, 37, 7⟩] from
        by decide]
      rw [show per100kDivisor c10Pop c10Dicts "00000" = 1 from by
        simp [per100kDivisor, stateTotal, popLookup, c10Pop, c10Dicts]]
      rw [show per100kDivisor c10Pop c10Dicts "01003" = 1 from by
        simp [per100kDivisor, popLookup, c10Pop, c10Dicts]]
      rw [show per100kDivisor c10Pop c10Dicts "01001" = 1 from by
        simp [per100kDivisor, popLookup, c10Pop, c10Dicts]]
      rw [show per100kDivisor c10Pop c10Dicts "01000" = 1 from by
        simp [per100kDivisor, popLookup, c10Pop, c10Dicts]]
      simp only [pdRound, pdDivScalar, List.map_cons, List.map_map, List.map_nil,
        Function.comp_apply, div_one, roundHE_intCast]
      norm_num
    have hpair := hAll (⟨"01000", "3/1/20", 20200301, 30, 4⟩, (3:ℚ))
      (by
        rw [hlist]
        have hz : c10Frame.rows.zip [(4:ℚ), 7, 3, 5, 1, 2, 4, 7] =
          [(⟨"00000", "3/1/20", 20200301, 30, 4⟩, (4:ℚ)),
           (⟨"00000", "3/2/20", 20200302, 37, 7⟩, (7:ℚ)),
           (⟨"01000", "3/1/20", 20200301, 30, 4⟩, (3:ℚ)),
           (⟨"01000", "3/2/20", 20200302, 37, 7⟩, (5:ℚ)),
           (⟨"01001", "3/1/20", 20200301, 10, 1⟩, (1:ℚ)),
           (⟨"01001", "3/2/20", 20200302, 15, 2⟩, (2:ℚ)),
           (⟨"01003", "3/1/20", 20200301, 20, 3⟩, (4:ℚ)),
           (⟨"01003", "3/2/20", 20200302, 22, 5⟩, (7:ℚ))] := rfl
        rw [hz]
        simp)
    have hdiv : per100kDivisor c10Pop c10Dicts "01000" = 1 := by
      simp [per100kDivisor, popLookup, c10Pop, c10Dicts]
    rw [hdiv, div_one] at hpair
    simp only [roundHE_intCast] at hpair
    norm_num at hpair

/-- C10 witness: with the population rows in ascending FIPS order, every
value of the derived column lands on its intended row of the grouped
table. -/
theorem c10_witness :
    c10DictsSorted.pop_fips.Pairwise (fun a b => strLe a b = true) ∧
    c10Frame.rows = c10DictsSorted.all_fips.flatMap
      (fun f => c10Frame.rows.filter (fun r => r.fips == f)) ∧
    ∀ pr ∈ c10Frame.rows.zip
      (new_column "Deaths" "PER100K" c10Frame c10PopSorted c10DictsSorted 1),
      pr.2 = ((roundHE ((pr.1.deaths : ℚ) /
        per100kDivisor c10PopSorted c10DictsSorted pr.1.fips) : ℤ) : ℚ) :=
  ⟨by decide, by decide,
   c10_per100k_placement.2.1 c10Frame c10PopSorted c10DictsSorted 1
     (by decide) (by decide) (by decide) (by decide) (by decide)⟩
